import Mathlib

/-!
Verification development for the code-reviewer change-resolution and
dispatch engine.  The Python sources under `code_reviewer/` are shallowly
embedded: pure helpers become Lean functions on `List Char` / `String`,
the external version-control tool is an oracle `GitEnv` mapping argument
vectors to results, fallible operations return `Except`, and naive local
`datetime` values are modelled as microseconds since an (arbitrary) local
epoch, so that `replace(hour=0, ...)` is flooring to a day boundary and
`timedelta` subtraction is plain integer subtraction.  String handling is
modelled at ASCII granularity (Python `str.strip` / `str.lower` and the
regex class `\d` also accept some further Unicode characters; none of the
verified properties depend on that fringe).
-/

set_option autoImplicit false

namespace CodeReviewer

/-! ## Python string primitives -/

/-- ASCII whitespace recognised by Python `str.strip()`. -/
def isPySpace (c : Char) : Bool :=
  c.toNat = 32 || c.toNat = 9 || c.toNat = 10 || c.toNat = 13 ||
    c.toNat = 11 || c.toNat = 12

/-- Python `str.strip()` on a character list: drop whitespace from both ends. -/
def stripChars (cs : List Char) : List Char :=
  List.rdropWhile isPySpace (List.dropWhile isPySpace cs)

/-- Python `str.strip()`. -/
def pyStrip (s : String) : String :=
  ⟨stripChars s.data⟩

/-- ASCII uppercase test, `A`-`Z`. -/
def isUpperAscii (c : Char) : Bool :=
  65 ≤ c.toNat && c.toNat ≤ 90

/-- Python `str.lower()` on a single ASCII character. -/
def lowerChar (c : Char) : Char :=
  if isUpperAscii c then Char.ofNat (c.toNat + 32) else c

/-- Python `str.lower()` on a character list. -/
def lowerChars (cs : List Char) : List Char :=
  cs.map lowerChar

/-- Python `str.lower()`. -/
def pyLower (s : String) : String :=
  ⟨lowerChars s.data⟩

/-- The normalisation `time_str.strip().lower()` performed by
`parse_time_duration`. -/
def normChars (cs : List Char) : List Char :=
  lowerChars (stripChars cs)

/-- String-level normalisation `s.strip().lower()`. -/
def normStr (s : String) : String :=
  ⟨normChars s.data⟩

/-- Prepend a character to the first part of a part list. -/
def consHead (c : Char) : List (List Char) → List (List Char)
  | [] => [[c]]
  | l :: ls => (c :: l) :: ls

/-- Python `content.split(chr(10))`: split at every newline, keeping empty
parts (the result always has one more part than there are newlines). -/
def splitNL : List Char → List (List Char)
  | [] => [[]]
  | c :: rest =>
    if c = '\n' then [] :: splitNL rest
    else consHead c (splitNL rest)

/-- Inverse of `splitNL`: join parts with a newline between them. -/
def joinNL : List (List Char) → List Char
  | [] => []
  | [l] => l
  | l :: ls => l ++ '\n' :: joinNL ls

/-- Python `str.splitlines()` restricted to the terminators LF, CR and CRLF:
splits at terminators and does not produce a final empty line for a trailing
terminator. -/
def splitLinesPy : List Char → List (List Char)
  | [] => []
  | '\r' :: '\n' :: rest => [] :: splitLinesPy rest
  | '\n' :: rest => [] :: splitLinesPy rest
  | '\r' :: rest => [] :: splitLinesPy rest
  | c :: rest =>
    match splitLinesPy rest with
    | [] => [[c]]
    | l :: ls => (c :: l) :: ls

/-- Truthiness of an optional string argument in Python: present and
non-empty. -/
def truthy : Option String → Bool
  | none => false
  | some v => v ≠ ""

/-- ASCII decimal digit test, the effective content of the regex class
`\d` for the inputs in scope. -/
def isAsciiDigit (c : Char) : Bool :=
  48 ≤ c.toNat && c.toNat ≤ 57

/-- Python `int(...)` on a string of decimal digits. -/
def digitsToNat (cs : List Char) : Nat :=
  cs.foldl (fun a c => 10 * a + (c.toNat - 48)) 0

/-- The ASCII character of a decimal digit. -/
def digitChar (k : Nat) : Char := Char.ofNat (48 + k)

/-- Fuel-driven worker for the decimal printer (structural recursion so
that the kernel can evaluate it). -/
def natDigitsF : Nat → Nat → List Char
  | 0, _ => []
  | fuel + 1, n =>
    if n < 10 then [digitChar n]
    else natDigitsF fuel (n / 10) ++ [digitChar (n % 10)]

/-- Decimal representation of a natural number as a character list. -/
def natDigits (n : Nat) : List Char := natDigitsF (n + 1) n

instance {ε α : Type} [DecidableEq ε] [DecidableEq α] : DecidableEq (Except ε α) :=
  fun a b =>
    match a, b with
    | .ok x, .ok y =>
      match decEq x y with
      | isTrue h => isTrue (by rw [h])
      | isFalse h => isFalse (by intro hc; cases hc; exact h rfl)
    | .error x, .error y =>
      match decEq x y with
      | isTrue h => isTrue (by rw [h])
      | isFalse h => isFalse (by intro hc; cases hc; exact h rfl)
    | .ok _, .error _ => isFalse (by intro hc; cases hc)
    | .error _, .ok _ => isFalse (by intro hc; cases hc)

/-- Insert a comma after every three characters of a reversed digit list:
the worker behind Python format `{n:,}`. -/
def commaGroup : List Char → List Char
  | d1 :: d2 :: d3 :: d4 :: rest => d1 :: d2 :: d3 :: ',' :: commaGroup (d4 :: rest)
  | l => l

/-- Python format `{n:,}`: decimal with thousands separators. -/
def commaFormat (n : Nat) : String :=
  ⟨(commaGroup (natDigits n).reverse).reverse⟩

/-! ## time_parser.py -/

def microsPerSecond : Int := 1000000
def microsPerMinute : Int := 60000000
def microsPerHour : Int := 3600000000
def microsPerDay : Int := 86400000000

/-- Python `now.replace(hour=0, minute=0, second=0, microsecond=0)`:
floor a naive local timestamp (microseconds since the local epoch) to the
start of its calendar day. -/
def startOfDay (now : Int) : Int :=
  now - now % microsPerDay

def hourOf (t : Int) : Int := t % microsPerDay / microsPerHour
def minuteOf (t : Int) : Int := t % microsPerHour / microsPerMinute
def secondOf (t : Int) : Int := t % microsPerMinute / microsPerSecond
def microsecondOf (t : Int) : Int := t % microsPerSecond

/-- The anchored regex match of `^(\d+)([hmd])$`: a non-empty run of digits
followed by exactly one unit character. -/
def matchTimePattern (cs : List Char) : Option (Nat × Char) :=
  match cs.getLast? with
  | none => none
  | some u =>
    let ds := cs.dropLast
    if (u = 'h' || u = 'm' || u = 'd') && !ds.isEmpty && ds.all isAsciiDigit then
      some (digitsToNat ds, u)
    else none

/-- Message of the `ValueError` raised for an unsupported token (the token
shown is the stripped, lowercased one). -/
def invalidTimeMsg (tok : String) : String :=
  "Invalid time format: \x27" ++ tok ++
    "\x27. Use formats like \x271h\x27, \x2730m\x27, \x272d\x27, or \x27today\x27"

/-- Embeds `parse_time_duration` from `code_reviewer/time_parser.py`, relative to
the current naive local time `now` (microseconds since the local epoch).
Errors model `ValueError` by its message. -/
def parse_time_duration (now : Int) (time_str : String) : Except String Int :=
  let t := normStr time_str
  if t = "today" then .ok (startOfDay now)
  else
    match matchTimePattern t.data with
    | some (amount, unit) =>
      if unit = 'h' then .ok (now - amount * microsPerHour)
      else if unit = 'm' then .ok (now - amount * microsPerMinute)
      else .ok (now - amount * microsPerDay)
    | none => .error (invalidTimeMsg t)

/-- A relative time token of the documented form: the decimal digits of
`n` followed by a unit character. -/
def timeToken (n : Nat) (u : Char) : String :=
  ⟨natDigits n ++ [u]⟩

/-- Zero-pad a natural number to two decimal digits. -/
def pad2 (n : Nat) : List Char :=
  if n < 10 then '0' :: natDigits n else natDigits n

/-- Civil date from days since 1970-01-01 (proleptic Gregorian). -/
def civilFromDays (z0 : Int) : Int × Nat × Nat :=
  let z := z0 + 719468
  let era := z / 146097
  let doe := (z % 146097).toNat
  let yoe := (doe - doe / 1460 + doe / 36524 - doe / 146096) / 365
  let doy := doe - (365 * yoe + yoe / 4 - yoe / 100)
  let mp := (5 * doy + 2) / 153
  let d := doy - (153 * mp + 2) / 5 + 1
  let m := if mp < 10 then mp + 3 else mp - 9
  let y := era * 400 + (yoe : Int) + (if m ≤ 2 then 1 else 0)
  (y, m, d)

/-- Embeds `datetime_to_git_format` from `code_reviewer/time_parser.py`:
`strftime(%Y-%m-%d %H:%M:%S)` on the modelled timestamp. -/
def datetime_to_git_format (t : Int) : String :=
  let days := t / microsPerDay
  let tod := (t % microsPerDay).toNat
  let ymd := civilFromDays days
  let yStr := if ymd.1 < 0 then '-' :: natDigits ymd.1.natAbs else natDigits ymd.1.toNat
  ⟨yStr ++ '-' :: pad2 ymd.2.1 ++ '-' :: pad2 ymd.2.2 ++
    ' ' :: pad2 (tod / 3600000000) ++ ':' :: pad2 (tod % 3600000000 / 60000000) ++
    ':' :: pad2 (tod % 60000000 / 1000000)⟩

/-! ## config.py and exceptions.py -/

/-- Configuration from `code_reviewer/config.py`: exactly the fields the
`Config` dataclass declares (plus defaults).  Notably there is no
`diff_context_lines` field anywhere, although `GitHelper.get_diff_content`
reads one. -/
structure Config where
  max_single_file_lines : Nat := 500
  max_total_diff_lines : Nat := 1000
  supported_extensions : List String := [".php", ".py", ".js"]
  default_model : String := "openai/o4-mini"
  max_tokens : Nat := 100000
  token_estimate_chars_per_token : Nat := 4
  max_estimated_tokens : Nat := 100000
deriving DecidableEq

/-- The exception kinds propagating out of the review workflow: the
`GitError`, `FileError` and `UserCancelledError` classes of
`code_reviewer/exceptions.py`, each carrying its message, and the built-in
`AttributeError` raised when code reads an attribute a dataclass does not
declare (no handler in the workflow catches it). -/
inductive RunError where
  | gitError (msg : String)
  | fileError (msg : String)
  | userCancelled (msg : String)
  | attributeError (msg : String)
deriving DecidableEq

/-! ## file_utils.py -/

/-- The final path component, as `pathlib.PurePath.name`: trailing slashes
are dropped, then everything after the last remaining slash is taken. -/
def pathName (cs : List Char) : List Char :=
  let noTrail := (List.dropWhile (fun c => c = '/') cs.reverse).reverse
  (noTrail.reverse.takeWhile (fun c => c ≠ '/')).reverse

/-- Model of `pathlib.PurePath.suffix`: the extension of the final component,
including the dot; empty when the last dot is the first character of the
name or the name does not contain an interior dot. -/
def pySuffix (s : String) : String :=
  let name := pathName s.data
  let pre := name.reverse.takeWhile (fun c => c ≠ '.')
  if pre.length = name.length then ""
  else
    let i := name.length - pre.length - 1
    if 0 < i ∧ i < name.length - 1 then ⟨name.drop i⟩ else ""

/-- Embeds `is_supported_file` from `code_reviewer/file_utils.py`. -/
def is_supported_file (filepath : String) (config : Config) : Bool :=
  config.supported_extensions.contains (pySuffix filepath)

/-- Embeds `count_lines` from `code_reviewer/file_utils.py`: the number of lines
of `content.split(chr(10))` whose stripped form is non-empty. -/
def count_lines (content : String) : Nat :=
  ((splitNL content.data).filter (fun l => !(stripChars l).isEmpty)).length

/-! ## git_helper.py

The external tool boundary of `run_command` is an oracle mapping the full
argument vector to either the (already whitespace-trimmed) stdout or a
`GitError` message (non-zero exit and missing binary both land there).
`Path(...).exists()` at filtering time is a second oracle. -/

structure GitEnv where
  run : List String → Except String String
  fileExists : String → Bool

/-- Embeds the loop body of `GitHelper.extract_supported_files` over one line:
strip it, skip blanks, in status mode split off the two status characters
and skip deleted entries, and otherwise yield the candidate filename. -/
def lineCandidate (parse_status : Bool) (line : List Char) : Option String :=
  let l := stripChars line
  if l.isEmpty then none
  else if parse_status then
    if 'D' ∈ l.take 2 then none
    else some ⟨stripChars (l.drop 2)⟩
  else some ⟨l⟩

/-- The loop of `GitHelper.extract_supported_files` over the split lines. -/
def extractLoop (config : Config) (ex : String → Bool) (parse_status : Bool) :
    List (List Char) → List String
  | [] => []
  | line :: rest =>
    match lineCandidate parse_status line with
    | none => extractLoop config ex parse_status rest
    | some filename =>
      if is_supported_file filename config && ex filename then
        filename :: extractLoop config ex parse_status rest
      else extractLoop config ex parse_status rest

/-- Embeds `GitHelper.extract_supported_files` from `code_reviewer/git_helper.py`. -/
def extract_supported_files (config : Config) (ex : String → Bool)
    (git_output : String) (parse_status : Bool) : List String :=
  extractLoop config ex parse_status (splitLinesPy git_output.data)

/-- Embeds `GitHelper.get_commit_from_time`: parse the time spec, query
`git rev-list -n 1 --before=<time> HEAD`, and classify the stripped
output; a `ValueError` from parsing becomes a `GitError`. -/
def get_commit_from_time (env : GitEnv) (now : Int) (time_spec : String) :
    Except String (Option String) :=
  match parse_time_duration now time_spec with
  | .error e => .error ("Invalid time format: " ++ e)
  | .ok target =>
    match env.run ["git", "rev-list", "-n", "1",
        "--before=" ++ datetime_to_git_format target, "HEAD"] with
    | .error e => .error e
    | .ok output =>
      let commit_hash := pyStrip output
      if commit_hash ≠ "" then .ok (some commit_hash) else .ok none

/-- Embeds `GitHelper.get_changed_files`: name-only diff against a commit when one
is (truthily) supplied, otherwise porcelain status with status parsing. -/
def get_changed_files (env : GitEnv) (config : Config)
    (since_commit : Option String) : Except String (List String) :=
  if truthy since_commit then
    match env.run ["git", "diff", "--name-only", since_commit.getD "", "HEAD"] with
    | .error e => .error e
    | .ok output => .ok (extract_supported_files config env.fileExists output false)
  else
    match env.run ["git", "status", "--porcelain"] with
    | .error e => .error e
    | .ok output => .ok (extract_supported_files config env.fileExists output true)

/-- Embeds `GitHelper.get_last_commit_files`. -/
def get_last_commit_files (env : GitEnv) (config : Config) :
    Except String (List String) :=
  match env.run ["git", "diff-tree", "--no-commit-id", "--name-only", "-r", "HEAD"] with
  | .error e => .error e
  | .ok output => .ok (extract_supported_files config env.fileExists output false)

/-- Message of the `AttributeError` raised by the first statement of the
non-empty branch of `GitHelper.get_diff_content`. -/
def configAttrMsg : String :=
  "\x27Config\x27 object has no attribute \x27diff_context_lines\x27"

set_option linter.unusedVariables false in
/-- Embeds `GitHelper.get_diff_content` from `code_reviewer/git_helper.py`:
an empty file list short-circuits to empty content with no tool call.  For
a non-empty list the source first evaluates the f-string
`-U{self.config.diff_context_lines}`, and since the `Config` dataclass
declares no `diff_context_lines` field this read raises `AttributeError`
before any diff argument vector exists or any command runs; the
surrounding handler catches only `GitError`, so the exception escapes.
The command construction and the `GitError` re-raise written below that
line are unreachable. -/
def get_diff_content (env : GitEnv) (config : Config) (files : List String)
    (diff_mode : String) (since_commit : Option String) : Except RunError String :=
  if files.isEmpty then .ok ""
  else .error (.attributeError configAttrMsg)

/-! ## review_operations.py -/

/-- Message of the `FileError` raised when resolution exhausts every
fallback. -/
def noChangedFilesMsg : String := "Couldn\x27t find any changed files"

/-- Embeds `review_single_file` from `code_reviewer/review_operations.py`.
`ex` models `Path(filepath).exists()`, `readResult` the outcome of
`read_file_content` (a `FileError` message on failure), and `answer` the
reply the user would give to the oversize confirmation prompt. -/
def review_single_file (filepath : String) (ex : String → Bool)
    (readResult : Except String String) (max_lines : Nat) (yes : Bool)
    (answer : String) : Except RunError String :=
  if !ex filepath then .error (.fileError ("File " ++ filepath ++ " does not exist"))
  else
    match readResult with
    | .error m => .error (.fileError m)
    | .ok content =>
      if (stripChars content.data).isEmpty then
        .error (.fileError ("File " ++ filepath ++ " is empty"))
      else
        if count_lines content > max_lines then
          if yes then .ok content
          else if pyLower answer = "y" then .ok content
          else .error (.userCancelled "Review cancelled by user")
        else .ok content

/-- The mode-selection prefix of `review_git_changes`
(`code_reviewer/review_operations.py`, the `since_time` / `since_commit` /
default branching): yields the active diff mode, the located files and the
reference commit. -/
def initialSelection (env : GitEnv) (config : Config) (now : Int)
    (since_commit since_time : Option String) :
    Except RunError (String × List String × Option String) :=
  if truthy since_time then
    match get_commit_from_time env now (since_time.getD "") with
    | .error e => .error (.gitError e)
    | .ok (some commit_hash) =>
      match get_changed_files env config (some commit_hash) with
      | .error e => .error (.gitError e)
      | .ok fs => .ok ("since-commit", fs, some commit_hash)
    | .ok none =>
      match get_changed_files env config none with
      | .error e => .error (.gitError e)
      | .ok fs => .ok ("uncommitted", fs, none)
  else if truthy since_commit then
    match get_changed_files env config since_commit with
    | .error e => .error (.gitError e)
    | .ok fs => .ok ("since-commit", fs, since_commit)
  else
    match get_changed_files env config none with
    | .error e => .error (.gitError e)
    | .ok fs => .ok ("uncommitted", fs, none)

/-- The empty-listing fallback of `review_git_changes`: a time-derived
since-commit mode first retries as uncommitted and only then falls back to
the last commit; every other empty listing falls back to the last commit
directly. -/
def applyFallback (env : GitEnv) (config : Config) (since_time : Option String)
    (sel : String × List String × Option String) :
    Except RunError (String × List String × Option String) :=
  let diff_mode := sel.1
  let changed_files := sel.2.1
  let since_commit := sel.2.2
  if changed_files.isEmpty then
    if truthy since_time && diff_mode = "since-commit" then
      match get_changed_files env config none with
      | .error e => .error (.gitError e)
      | .ok ufs =>
        if !ufs.isEmpty then .ok ("uncommitted", ufs, none)
        else
          match get_last_commit_files env config with
          | .error e => .error (.gitError e)
          | .ok lfs => .ok ("last-commit", lfs, since_commit)
    else
      match get_last_commit_files env config with
      | .error e => .error (.gitError e)
      | .ok lfs => .ok ("last-commit", lfs, since_commit)
  else .ok (diff_mode, changed_files, since_commit)

/-- Mode selection followed by the fallback chain. -/
def resolveFiles (env : GitEnv) (config : Config) (now : Int)
    (since_commit since_time : Option String) :
    Except RunError (String × List String × Option String) :=
  match initialSelection env config now since_commit since_time with
  | .error e => .error e
  | .ok sel => applyFallback env config since_time sel

/-- The tail of `review_git_changes`: gate an oversize diff behind the
confirmation prompt and wrap non-empty content in a fenced diff block. -/
def confirmLargeDiff (config : Config) (yes : Bool) (answer : String)
    (diff_content : String) : Except RunError String :=
  if diff_content ≠ "" then
    if count_lines diff_content > config.max_total_diff_lines then
      if yes then .ok ("```diff\n" ++ diff_content ++ "\n```")
      else if pyLower answer = "y" then .ok ("```diff\n" ++ diff_content ++ "\n```")
      else .error (.userCancelled
        "Consider reviewing files one at a time with: cr <filename>")
    else .ok ("```diff\n" ++ diff_content ++ "\n```")
  else .ok diff_content

/-- Embeds `review_git_changes` from `code_reviewer/review_operations.py`.
The function has no handler of its own, so whatever `get_diff_content`
raises propagates unchanged. -/
def review_git_changes (env : GitEnv) (config : Config) (now : Int)
    (since_commit since_time : Option String) (yes : Bool) (answer : String) :
    Except RunError String :=
  match resolveFiles env config now since_commit since_time with
  | .error e => .error e
  | .ok sel =>
    if sel.2.1.isEmpty then .error (.fileError noChangedFilesMsg)
    else
      match get_diff_content env config sel.2.1 sel.1 sel.2.2 with
      | .error e => .error e
      | .ok diff_content => confirmLargeDiff config yes answer diff_content

/-! ## review_engine.py -/

/-- One choice of an LLM completion response: whether
`choice.message.content` is reachable (`hasattr` twice), the
`finish_reason` attribute, and the content value with `none` as the
Python `None` sentinel. -/
structure LLMChoice where
  hasMessageContent : Bool
  finish_reason : Option String
  content : Option String
deriving DecidableEq

/-- An LLM completion response: `none` models a response object without a
`choices` attribute. -/
structure LLMResponse where
  choices : Option (List LLMChoice)
deriving DecidableEq

/-- The wrapper applied by the catch-all handler of
`CodeReviewer.get_review`: every exception raised inside the completion
block resurfaces as `LLMError(f"Error getting review from LLM: {e}")`. -/
def wrapLLM (msg : String) : String :=
  "Error getting review from LLM: " ++ msg

def noChoicesMsg : String := "LLM response has no choices"

def invalidStructureMsg : String := "LLM response has invalid structure"

def truncatedMsg (config : Config) : String :=
  "LLM response was truncated due to " ++ Nat.repr config.max_tokens ++
    " token limit. Try using --max-lines with a smaller value or increase max_tokens in config."

def noneContentMsg : String :=
  "LLM returned empty content (None). This may be due to content size, filters, or model limits."

def emptyContentMsg : String := "LLM response content is empty after processing"

def emptyAtLimitMsg (config : Config) : String :=
  "LLM hit the " ++ Nat.repr config.max_tokens ++
    " token limit and returned empty content. Try reducing file size or increasing max_tokens."

/-- Message of the `LLMError` raised by the token-size guard. -/
def contentTooLargeMsg (estimated_tokens : Nat) : String :=
  "Content too large (" ++ commaFormat estimated_tokens ++
    " estimated tokens). Consider reviewing smaller chunks or individual files."

/-- The response-validation sequence of `CodeReviewer.get_review`
(`code_reviewer/review_engine.py`): no/empty choices, missing message
content attribute, length-limited finish reason, `None` content, and
content that strips to the empty string, in that order; on success the
model/cost trailer is appended. -/
def extractReview (config : Config) (model_to_use formatted_cost : String)
    (resp : LLMResponse) : Except String String :=
  match resp.choices with
  | none => .error noChoicesMsg
  | some [] => .error noChoicesMsg
  | some (choice :: _) =>
    if !choice.hasMessageContent then .error invalidStructureMsg
    else if choice.finish_reason = some "length" then .error (truncatedMsg config)
    else
      match choice.content with
      | none => .error noneContentMsg
      | some content_value =>
        let review_content := pyStrip content_value
        if review_content = "" then
          if choice.finish_reason = some "length" then .error (emptyAtLimitMsg config)
          else .error emptyContentMsg
        else
          .ok (review_content ++ "\n\nModel: " ++ model_to_use ++ " -- Cost: " ++
            formatted_cost ++ "\n")

/-- Embeds `CodeReviewer.get_review` from `code_reviewer/review_engine.py`, after
the system prompt has been resolved.  `resp` is the response the provider
would return and `formatted_cost` the rendered `completion_cost`; the
token-size guard fires before either is consulted.  Inner validation
failures surface through the catch-all wrapper. -/
def get_review (config : Config) (content : String) (model : Option String)
    (system_prompt : String) (resp : LLMResponse) (formatted_cost : String) :
    Except String String :=
  let model_to_use :=
    match model with
    | some m => if m = "" then config.default_model else m
    | none => config.default_model
  let estimated_tokens :=
    (content.length + system_prompt.length) / config.token_estimate_chars_per_token
  if estimated_tokens > config.max_estimated_tokens then
    .error (contentTooLargeMsg estimated_tokens)
  else
    match extractReview config model_to_use formatted_cost resp with
    | .ok r => .ok r
    | .error m => .error (wrapLLM m)

/-! ## Concrete fixtures

Small closed environments used to instantiate the verified properties on
concrete runs. -/

/-- The default configuration (`Config()` with the dataclass defaults). -/
def cfgW : Config := {}

/-- A configuration with a tiny token ceiling, to exercise the size guard. -/
def cfgSmall : Config := { max_estimated_tokens := 2 }

/-- A configuration with a tiny total-diff ceiling, to exercise the
oversize-diff confirmation. -/
def cfgDiff2 : Config := { max_total_diff_lines := 2 }

/-- A repository with one commit at or before the requested time, no
committed changes since it, no uncommitted changes, and one Python file in
the last commit. -/
def envTimeFallback : GitEnv where
  run cmd :=
    if cmd.take 4 = ["git", "rev-list", "-n", "1"] then .ok "abc123"
    else if cmd = ["git", "status", "--porcelain"] then .ok ""
    else if cmd.take 3 = ["git", "diff", "--name-only"] then .ok ""
    else if cmd = ["git", "diff-tree", "--no-commit-id", "--name-only", "-r", "HEAD"] then
      .ok "x.py"
    else .error "unexpected command"
  fileExists _ := true

/-- A repository in which every listing is empty. -/
def envNothing : GitEnv where
  run _ := .ok ""
  fileExists _ := true

/-- A repository whose status listing shows one untracked Python file. -/
def envUntracked : GitEnv where
  run cmd :=
    if cmd = ["git", "status", "--porcelain"] then .ok "?? a.py"
    else .error "unexpected command"
  fileExists _ := true

/-! ## Helper lemmas: characters and normalisation -/

theorem isPySpace_false_of_ge {c : Char} (h : 48 ≤ c.toNat) : isPySpace c = false := by
  simp only [isPySpace, Bool.or_eq_false_iff, decide_eq_false_iff_not]
  omega

theorem isUpperAscii_iff {c : Char} :
    isUpperAscii c = true ↔ 65 ≤ c.toNat ∧ c.toNat ≤ 90 := by
  simp [isUpperAscii]

theorem char_shift_not_space {n : Nat} (h1 : 65 ≤ n) (h2 : n ≤ 90) :
    isPySpace (Char.ofNat (n + 32)) = false := by
  interval_cases n <;> decide

theorem char_shift_not_upper {n : Nat} (h1 : 65 ≤ n) (h2 : n ≤ 90) :
    isUpperAscii (Char.ofNat (n + 32)) = false := by
  interval_cases n <;> decide

theorem isPySpace_lowerChar (c : Char) : isPySpace (lowerChar c) = isPySpace c := by
  unfold lowerChar
  by_cases h : isUpperAscii c = true
  · rcases isUpperAscii_iff.mp h with ⟨h1, h2⟩
    rw [if_pos h, char_shift_not_space h1 h2, isPySpace_false_of_ge (by omega)]
  · rw [if_neg h]

theorem lowerChar_idem (c : Char) : lowerChar (lowerChar c) = lowerChar c := by
  unfold lowerChar
  by_cases h : isUpperAscii c = true
  · rcases isUpperAscii_iff.mp h with ⟨h1, h2⟩
    rw [if_pos h, if_neg (by rw [char_shift_not_upper h1 h2]; simp)]
  · rw [if_neg h, if_neg h]

theorem lowerChar_eq_self {c : Char} (h : isUpperAscii c = false) : lowerChar c = c := by
  simp [lowerChar, h]

theorem dropWhile_map_comm {α β : Type} (f : α → β) (p : β → Bool) (l : List α) :
    List.dropWhile p (l.map f) = (List.dropWhile (fun a => p (f a)) l).map f := by
  induction l with
  | nil => rfl
  | cons a l ih =>
    by_cases h : p (f a) = true <;>
      simp [List.dropWhile_cons, h, ih]

theorem rdropWhile_map_comm {α β : Type} (f : α → β) (p : β → Bool) (l : List α) :
    List.rdropWhile p (l.map f) = (List.rdropWhile (fun a => p (f a)) l).map f := by
  unfold List.rdropWhile
  rw [← List.map_reverse, dropWhile_map_comm, List.map_reverse]

theorem stripChars_lowerChars (cs : List Char) :
    stripChars (lowerChars cs) = lowerChars (stripChars cs) := by
  unfold stripChars lowerChars
  rw [dropWhile_map_comm, rdropWhile_map_comm]
  have h1 : (fun a => isPySpace (lowerChar a)) = isPySpace := by
    funext a; exact isPySpace_lowerChar a
  rw [h1]

theorem dropWhile_eq_self_of_prefixed {α : Type} {p : α → Bool} {X Y : List α}
    (hpre : X <+: Y) (hY : List.dropWhile p Y = Y) : List.dropWhile p X = X := by
  cases X with
  | nil => rfl
  | cons a X2 =>
    rcases hpre with ⟨t, ht⟩
    have hpa : p a = false := by
      by_contra hne
      have hpa : p a = true := by
        cases h : p a
        · exact absurd h hne
        · rfl
      rw [← ht, List.cons_append, List.dropWhile_cons, hpa] at hY
      simp only [if_true] at hY
      have hlen := List.Sublist.length_le (List.dropWhile_sublist (p := p) (l := X2 ++ t))
      have h2 := congrArg List.length hY
      rw [List.length_cons] at h2
      omega
    rw [List.dropWhile_cons, hpa]
    simp

theorem stripChars_idem (cs : List Char) : stripChars (stripChars cs) = stripChars cs := by
  unfold stripChars
  rw [dropWhile_eq_self_of_prefixed ( List.rdropWhile_prefix _ _)
    (List.dropWhile_idempotent _ _), List.rdropWhile_idempotent]

theorem lowerChars_idem (cs : List Char) : lowerChars (lowerChars cs) = lowerChars cs := by
  unfold lowerChars
  rw [List.map_map]
  apply List.map_congr_left
  intro a _
  exact lowerChar_idem a

theorem normChars_idem (cs : List Char) : normChars (normChars cs) = normChars cs := by
  unfold normChars
  rw [stripChars_lowerChars, lowerChars_idem, stripChars_idem]

theorem normStr_normStr (s : String) : normStr (normStr s) = normStr s :=
  congrArg String.mk (normChars_idem s.data)

theorem stripChars_eq_self {cs : List Char} (h : ∀ c ∈ cs, isPySpace c = false) :
    stripChars cs = cs := by
  have hL : List.dropWhile isPySpace cs = cs := by
    cases cs with
    | nil => rfl
    | cons a l => rw [List.dropWhile_cons, h a (by simp)]; simp
  unfold stripChars
  rw [hL, List.rdropWhile_eq_self_iff.mpr]
  intro hne
  simp [h _ (List.getLast_mem hne)]

theorem lowerChars_eq_self {cs : List Char} (h : ∀ c ∈ cs, isUpperAscii c = false) :
    lowerChars cs = cs := by
  induction cs with
  | nil => rfl
  | cons a l ih =>
    unfold lowerChars at *
    simp only [List.map_cons]
    rw [lowerChar_eq_self (h a (by simp)), ih (fun c hc => h c (by simp [hc]))]

/-! ## Helper lemmas: the decimal printer and newline splitting -/

theorem natDigitsF_irrel (f1 : Nat) :
    ∀ (f2 n : Nat), n < f1 → n < f2 → natDigitsF f1 n = natDigitsF f2 n := by
  induction f1 with
  | zero => intro f2 n h1 _; omega
  | succ f ih =>
    intro f2 n h1 h2
    cases f2 with
    | zero => omega
    | succ g =>
      show natDigitsF (f + 1) n = natDigitsF (g + 1) n
      unfold natDigitsF
      by_cases h : n < 10
      · rw [if_pos h, if_pos h]
      · have hd : n / 10 < n := Nat.div_lt_self (by omega) (by omega)
        rw [if_neg h, if_neg h, ih g (n / 10) (by omega) (by omega)]

theorem natDigits_eq (n : Nat) :
    natDigits n =
      if n < 10 then [digitChar n] else natDigits (n / 10) ++ [digitChar (n % 10)] := by
  unfold natDigits
  by_cases h : n < 10
  · rw [if_pos h]
    unfold natDigitsF
    rw [if_pos h]
  · rw [if_neg h]
    conv_lhs => unfold natDigitsF
    rw [if_neg h]
    have hd : n / 10 < n := Nat.div_lt_self (by omega) (by omega)
    rw [natDigitsF_irrel n (n / 10 + 1) (n / 10) (by omega) (by omega)]

theorem digitChar_toNat {k : Nat} (h : k < 10) : (digitChar k).toNat = 48 + k := by
  interval_cases k <;> decide

theorem isAsciiDigit_digitChar {k : Nat} (h : k < 10) : isAsciiDigit (digitChar k) = true := by
  interval_cases k <;> decide

theorem isAsciiDigit_toNat {c : Char} (h : isAsciiDigit c = true) :
    48 ≤ c.toNat ∧ c.toNat ≤ 57 := by
  simpa [isAsciiDigit] using h

theorem digitsToNat_concat (l : List Char) (c : Char) :
    digitsToNat (l ++ [c]) = 10 * digitsToNat l + (c.toNat - 48) := by
  unfold digitsToNat
  rw [List.foldl_append]
  rfl

theorem digitsToNat_natDigits (n : Nat) : digitsToNat (natDigits n) = n := by
  induction n using Nat.strong_induction_on with
  | _ n ih =>
    rw [natDigits_eq]
    by_cases h : n < 10
    · rw [if_pos h]
      have h1 : digitsToNat [digitChar n] = 10 * 0 + ((digitChar n).toNat - 48) := rfl
      rw [h1, digitChar_toNat h]
      omega
    · rw [if_neg h, digitsToNat_concat,
        ih (n / 10) (Nat.div_lt_self (by omega) (by omega)),
        digitChar_toNat (Nat.mod_lt n (by omega))]
      omega

theorem natDigits_ne_nil (n : Nat) : natDigits n ≠ [] := by
  rw [natDigits_eq]
  by_cases h : n < 10
  · rw [if_pos h]; simp
  · rw [if_neg h]; simp

theorem natDigits_all_digit (n : Nat) : ∀ c ∈ natDigits n, isAsciiDigit c = true := by
  induction n using Nat.strong_induction_on with
  | _ n ih =>
    rw [natDigits_eq]
    by_cases h : n < 10
    · rw [if_pos h]
      intro c hc
      simp at hc
      subst hc
      exact isAsciiDigit_digitChar h
    · rw [if_neg h]
      intro c hc
      rcases List.mem_append.mp hc with h1 | h2
      · exact ih (n / 10) (Nat.div_lt_self (by omega) (by omega)) c h1
      · simp at h2
        subst h2
        exact isAsciiDigit_digitChar (Nat.mod_lt n (by omega))

theorem splitNL_no_newline {l : List Char} (h : ('\n' : Char) ∉ l) : splitNL l = [l] := by
  induction l with
  | nil => rfl
  | cons c r ih =>
    have hc : c ≠ '\n' := fun he => h (by simp [he])
    unfold splitNL
    rw [if_neg hc, ih (fun hm => h (by simp [hm]))]
    rfl

theorem splitNL_append_newline {l : List Char} (t : List Char) (h : ('\n' : Char) ∉ l) :
    splitNL (l ++ '\n' :: t) = l :: splitNL t := by
  induction l with
  | nil => simp [splitNL]
  | cons c r ih =>
    have hc : c ≠ '\n' := fun he => h (by simp [he])
    simp only [List.cons_append]
    conv_lhs => unfold splitNL
    rw [if_neg hc, ih (fun hm => h (by simp [hm]))]
    rfl

theorem splitNL_joinNL {ls : List (List Char)} (hne : ls ≠ [])
    (h : ∀ l ∈ ls, ('\n' : Char) ∉ l) : splitNL (joinNL ls) = ls := by
  induction ls with
  | nil => exact absurd rfl hne
  | cons l rest ih =>
    cases rest with
    | nil => exact splitNL_no_newline (h l (by simp))
    | cons l2 rest2 =>
      have hj : joinNL (l :: l2 :: rest2) = l ++ '\n' :: joinNL (l2 :: rest2) := rfl
      rw [hj, splitNL_append_newline _ (h l (by simp)),
        ih (by simp) (fun x hx => h x (by simp [hx]))]

/-! ## Helper lemmas: time tokens -/

theorem isUpperAscii_false_of_lt {c : Char} (h : c.toNat < 65) :
    isUpperAscii c = false := by
  simp only [isUpperAscii, Bool.and_eq_false_iff, decide_eq_false_iff_not]
  omega

theorem normStr_timeToken (n : Nat) {u : Char} (hs : isPySpace u = false)
    (hu : isUpperAscii u = false) : normStr (timeToken n u) = timeToken n u := by
  have hmem : ∀ c ∈ natDigits n ++ [u], isPySpace c = false ∧ isUpperAscii c = false := by
    intro c hc
    rcases List.mem_append.mp hc with h1 | h2
    · have hd := isAsciiDigit_toNat (natDigits_all_digit n c h1)
      exact ⟨isPySpace_false_of_ge hd.1, isUpperAscii_false_of_lt (by omega)⟩
    · simp at h2
      subst h2
      exact ⟨hs, hu⟩
  show String.mk (normChars (natDigits n ++ [u])) = String.mk (natDigits n ++ [u])
  unfold normChars
  rw [stripChars_eq_self (fun c hc => (hmem c hc).1)]
  rw [lowerChars_eq_self (fun c hc => (hmem c hc).2)]

theorem matchTimePattern_timeToken (n : Nat) {u : Char}
    (hu : u = 'h' ∨ u = 'm' ∨ u = 'd') :
    matchTimePattern (timeToken n u).data = some (n, u) := by
  show matchTimePattern (natDigits n ++ [u]) = some (n, u)
  unfold matchTimePattern
  simp only [List.getLast?_concat, List.dropLast_concat]
  rw [if_pos, digitsToNat_natDigits]
  have h1 : (natDigits n).isEmpty = false := List.isEmpty_eq_false.mpr (natDigits_ne_nil n)
  have h2 : (natDigits n).all isAsciiDigit = true := List.all_eq_true.mpr (natDigits_all_digit n)
  rcases hu with h | h | h <;> subst h <;> simp [h1, h2]

theorem timeToken_ne_today (n : Nat) {u : Char}
    (hu : u = 'h' ∨ u = 'm' ∨ u = 'd') : timeToken n u ≠ "today" := by
  intro he
  have hdata := congrArg String.data he
  have h1 : (natDigits n ++ [u]).getLast? = some u := List.getLast?_concat _
  rw [show (timeToken n u).data = natDigits n ++ [u] from rfl] at hdata
  rw [hdata] at h1
  have h2 : ("today".data).getLast? = some 'y' := by decide
  rw [h2] at h1
  rcases hu with h | h | h <;> subst h <;> simp at h1

theorem parse_timeToken (now : Int) (n : Nat) {u : Char}
    (hu : u = 'h' ∨ u = 'm' ∨ u = 'd') :
    parse_time_duration now (timeToken n u) =
      (if u = 'h' then .ok (now - n * microsPerHour)
       else if u = 'm' then .ok (now - n * microsPerMinute)
       else .ok (now - n * microsPerDay)) := by
  have hs : isPySpace u = false := by
    rcases hu with h | h | h <;> subst h <;> decide
  have hup : isUpperAscii u = false := by
    rcases hu with h | h | h <;> subst h <;> decide
  simp only [parse_time_duration, normStr_timeToken n hs hup]
  rw [if_neg (timeToken_ne_today n hu), matchTimePattern_timeToken n hu]

/-- C10: time-token parsing is invariant under surrounding-whitespace
removal and lowercasing: the result on any token equals the result on the
stripped lowercased token (so they succeed and fail together, with equal
values), and tokens such as " 1H " or "TODAY" are accepted although they
are not literally of the documented forms. -/
theorem parse_time_duration_normalization (now : Int) (t : String) :
    parse_time_duration now t = parse_time_duration now (normStr t) ∧
    parse_time_duration now " 1H " = .ok (now - 1 * microsPerHour) ∧
    parse_time_duration now "TODAY" = .ok (startOfDay now) := by
  refine ⟨?_, rfl, rfl⟩
  simp only [parse_time_duration, normStr_normStr]

/-- C8 counterexample: the token TODAY is neither the literal token today
nor of the form digits-plus-unit, yet parsing it succeeds (with the
start-of-day value) instead of failing with the invalid-format error. -/
theorem parse_time_duration_c8_counterexample :
    ("TODAY" : String) ≠ "today" ∧ matchTimePattern ("TODAY".data) = none ∧
    parse_time_duration 0 "TODAY" = .ok (startOfDay 0) :=
  ⟨by decide, by decide, rfl⟩

/-- C8 (amended): parsing the token today yields the start of the current
local day with hour, minute, second and microsecond all zero; parsing the
token made of the decimal digits of N followed by h, m or d yields the
current time minus N hours, minutes or days; and every token whose
stripped, lowercased form is neither today nor of that digits-plus-unit
shape fails with the invalid-time-format error carrying the normalised
offending token. -/
theorem parse_time_duration_semantics (now : Int) (t : String) :
    (parse_time_duration now "today" = .ok (startOfDay now) ∧
      hourOf (startOfDay now) = 0 ∧ minuteOf (startOfDay now) = 0 ∧
      secondOf (startOfDay now) = 0 ∧ microsecondOf (startOfDay now) = 0) ∧
    (∀ n : Nat, parse_time_duration now (timeToken n 'h') = .ok (now - n * microsPerHour)) ∧
    (∀ n : Nat, parse_time_duration now (timeToken n 'm') = .ok (now - n * microsPerMinute)) ∧
    (∀ n : Nat, parse_time_duration now (timeToken n 'd') = .ok (now - n * microsPerDay)) ∧
    (normStr t ≠ "today" → matchTimePattern (normStr t).data = none →
      parse_time_duration now t = .error (invalidTimeMsg (normStr t))) := by
  refine ⟨⟨rfl, ?_, ?_, ?_, ?_⟩, ?_, ?_, ?_, ?_⟩
  · simp only [hourOf, startOfDay, microsPerDay, microsPerHour]; omega
  · simp only [minuteOf, startOfDay, microsPerDay, microsPerHour, microsPerMinute]; omega
  · simp only [secondOf, startOfDay, microsPerDay, microsPerMinute, microsPerSecond]; omega
  · simp only [microsecondOf, startOfDay, microsPerDay, microsPerSecond]; omega
  · intro n
    rw [parse_timeToken now n (Or.inl rfl)]
    rfl
  · intro n
    rw [parse_timeToken now n (Or.inr (Or.inl rfl))]
    rfl
  · intro n
    rw [parse_timeToken now n (Or.inr (Or.inr rfl))]
    rfl
  · intro h1 h2
    simp only [parse_time_duration]
    rw [if_neg h1, h2]

/-- Witness for the amended C8 on concrete tokens. -/
theorem parse_time_duration_semantics_witness :
    parse_time_duration 0 (timeToken 2 'h') = .ok (0 - 2 * microsPerHour) ∧
    parse_time_duration 5 "soon" = .error (invalidTimeMsg "soon") :=
  ⟨(parse_time_duration_semantics 0 "x").2.1 2,
   (parse_time_duration_semantics 5 "soon").2.2.2.2 (by decide) (by decide)⟩

/-! ## Change-locator filtering (C6) and diff assembly (C7, C2) -/

theorem extractLoop_eq (config : Config) (ex : String → Bool) (ps : Bool)
    (lines : List (List Char)) :
    extractLoop config ex ps lines
      = (lines.filterMap (lineCandidate ps)).filter
          (fun f => is_supported_file f config && ex f) := by
  induction lines with
  | nil => rfl
  | cons line rest ih =>
    cases h : lineCandidate ps line with
    | none => simp only [extractLoop, h, List.filterMap_cons, ih]
    | some f =>
      simp only [extractLoop, h, List.filterMap_cons]
      by_cases hp : (is_supported_file f config && ex f) = true
      · rw [if_pos hp, ih]
        simp [List.filter_cons, hp]
      · have hp2 : (is_supported_file f config && ex f) = false := by simpa using hp
        rw [if_neg hp, ih]
        simp [List.filter_cons, hp2]

/-- C6: for every git output and both status-parsing modes, the extracted
file list is exactly the order-preserving filter of the per-line
candidates through the shared supported-extension and exists-on-disk
predicate; hence every listed file is supported and exists, the list is a
sublist (in discovery order) of the candidates, and in status mode every
listed file stems from a non-blank line whose two-character status carries
no deleted marker. -/
theorem change_locator_filter_invariant (config : Config) (ex : String → Bool)
    (git_output : String) (parse_status : Bool) :
    extract_supported_files config ex git_output parse_status
      = ((splitLinesPy git_output.data).filterMap (lineCandidate parse_status)).filter
          (fun f => is_supported_file f config && ex f) ∧
    (∀ f ∈ extract_supported_files config ex git_output parse_status,
      is_supported_file f config = true ∧ ex f = true) ∧
    List.Sublist (extract_supported_files config ex git_output parse_status)
      ((splitLinesPy git_output.data).filterMap (lineCandidate parse_status)) ∧
    (parse_status = true →
      ∀ f ∈ extract_supported_files config ex git_output parse_status,
        ∃ line ∈ splitLinesPy git_output.data,
          (stripChars line).isEmpty = false ∧
          'D' ∉ (stripChars line).take 2 ∧
          f = String.mk (stripChars ((stripChars line).drop 2))) := by
  have he : extract_supported_files config ex git_output parse_status
      = ((splitLinesPy git_output.data).filterMap (lineCandidate parse_status)).filter
          (fun f => is_supported_file f config && ex f) :=
    extractLoop_eq config ex parse_status (splitLinesPy git_output.data)
  refine ⟨he, ?_, ?_, ?_⟩
  · intro f hf
    rw [he] at hf
    have hp := List.of_mem_filter hf
    exact Bool.and_eq_true_iff.mp hp
  · rw [he]
    exact List.filter_sublist _
  · intro hps f hf
    subst hps
    rw [he] at hf
    have hm := List.mem_of_mem_filter hf
    rcases List.mem_filterMap.mp hm with ⟨line, hline, hc⟩
    refine ⟨line, hline, ?_⟩
    unfold lineCandidate at hc
    by_cases h1 : (stripChars line).isEmpty = true
    · rw [if_pos h1] at hc
      cases hc
    · rw [if_neg h1, if_pos rfl] at hc
      by_cases h2 : 'D' ∈ (stripChars line).take 2
      · rw [if_pos h2] at hc
        cases hc
      · rw [if_neg h2] at hc
        cases hc
        exact ⟨Bool.not_eq_true _ ▸ h1, h2, rfl⟩

/-- Witness for C6 on a concrete porcelain status output with a deleted
entry, an unsupported extension and two supported files. -/
theorem change_locator_filter_invariant_witness :
    extract_supported_files cfgW (fun _ => true)
      " M a.py\n D gone.py\n?? b.js\nM  c.txt" true = ["a.py", "b.js"] ∧
    (is_supported_file "a.py" cfgW = true ∧ (fun (_ : String) => true) "a.py" = true) ∧
    (∃ line ∈ splitLinesPy (" M a.py\n D gone.py\n?? b.js\nM  c.txt" : String).data,
      (stripChars line).isEmpty = false ∧
      'D' ∉ (stripChars line).take 2 ∧
      ("a.py" : String) = String.mk (stripChars ((stripChars line).drop 2))) :=
  ⟨by decide,
   (change_locator_filter_invariant cfgW (fun _ => true)
     " M a.py\n D gone.py\n?? b.js\nM  c.txt" true).2.1 "a.py" (by decide),
   (change_locator_filter_invariant cfgW (fun _ => true)
     " M a.py\n D gone.py\n?? b.js\nM  c.txt" true).2.2.2 rfl "a.py" (by decide)⟩

/-- C7: diff assembly with an empty file list yields empty content in
every environment, for every mode and commit reference: the result does
not depend on the external tool at all. -/
theorem get_diff_content_empty_files (env : GitEnv) (config : Config)
    (diff_mode : String) (since_commit : Option String) :
    get_diff_content env config [] diff_mode since_commit = .ok "" := rfl

/-- C2 (code bug): the claimed propagation of a failing diff command as a
version-control error is unreachable in the code as written.  For every
non-empty file list, in every environment, `get_diff_content` fails with
the missing-attribute error before any diff command exists or runs, so
the claimed scenario - the tool exiting non-zero or being absent during
diff assembly - can never occur; and a git-change run that locates files
crashes the same way through resolution.  Nothing is converted into an
empty string. -/
theorem get_diff_content_attribute_crash :
    (∀ (env : GitEnv) (config : Config) (f : String) (fs : List String)
        (diff_mode : String) (since_commit : Option String),
      get_diff_content env config (f :: fs) diff_mode since_commit =
        .error (.attributeError configAttrMsg)) ∧
    review_git_changes envUntracked cfgW 0 none none false "" =
      .error (.attributeError configAttrMsg) := by
  constructor
  · intro env config f fs diff_mode since_commit
    rfl
  · decide

/-! ## Dispatch guards and validation (C4, C3) -/

/-- C4: when the character-estimated token count of content plus system
prompt strictly exceeds the configured ceiling, dispatch fails with the
content-too-large error naming the estimate, and the result is the same
for every provider response and cost: no call to the external model is
consulted. -/
theorem dispatch_content_too_large (config : Config) (content system_prompt : String)
    (model : Option String) (resp : LLMResponse) (formatted_cost : String)
    (h : (content.length + system_prompt.length) / config.token_estimate_chars_per_token
        > config.max_estimated_tokens) :
    get_review config content model system_prompt resp formatted_cost =
      .error (contentTooLargeMsg
        ((content.length + system_prompt.length) / config.token_estimate_chars_per_token)) := by
  unfold get_review
  rw [if_pos h]

/-- Witness for C4: twelve characters against a two-token ceiling. -/
theorem dispatch_content_too_large_witness :
    get_review cfgSmall "0123456789ab" none "" ⟨none⟩ "c" = .error (contentTooLargeMsg 3) :=
  dispatch_content_too_large cfgSmall "0123456789ab" "" none ⟨none⟩ "c" (by decide)

/-- C3: once the size guard passes, response validation fails in order,
each step with its own distinct message (surfaced through the catch-all
wrapper): absent or empty choices as malformed; a choice without a
reachable message content field as malformed; a stated finish reason of
length as truncated, before and regardless of the content checks, so any
partial text is discarded; the None content sentinel as empty response;
and content that strips to the empty string as empty response. -/
theorem dispatch_validation_order (config : Config) (content system_prompt : String)
    (model : Option String) (resp : LLMResponse) (formatted_cost : String)
    (hsize : ¬((content.length + system_prompt.length) / config.token_estimate_chars_per_token
        > config.max_estimated_tokens)) :
    ((resp.choices = none ∨ resp.choices = some []) →
      get_review config content model system_prompt resp formatted_cost =
        .error (wrapLLM noChoicesMsg)) ∧
    (∀ c rest, resp.choices = some (c :: rest) → c.hasMessageContent = false →
      get_review config content model system_prompt resp formatted_cost =
        .error (wrapLLM invalidStructureMsg)) ∧
    (∀ c rest, resp.choices = some (c :: rest) → c.hasMessageContent = true →
      c.finish_reason = some "length" →
      get_review config content model system_prompt resp formatted_cost =
        .error (wrapLLM (truncatedMsg config))) ∧
    (∀ c rest, resp.choices = some (c :: rest) → c.hasMessageContent = true →
      c.finish_reason ≠ some "length" → c.content = none →
      get_review config content model system_prompt resp formatted_cost =
        .error (wrapLLM noneContentMsg)) ∧
    (∀ c rest content_value, resp.choices = some (c :: rest) →
      c.hasMessageContent = true → c.finish_reason ≠ some "length" →
      c.content = some content_value → pyStrip content_value = "" →
      get_review config content model system_prompt resp formatted_cost =
        .error (wrapLLM emptyContentMsg)) := by
  refine ⟨?_, ?_, ?_, ?_, ?_⟩
  · intro hch
    unfold get_review
    rw [if_neg hsize]
    rcases hch with h | h <;> rw [extractReview, h]
  · intro c rest hch hc
    unfold get_review
    rw [if_neg hsize, extractReview, hch]
    simp [hc]
  · intro c rest hch hc hfr
    unfold get_review
    rw [if_neg hsize, extractReview, hch]
    simp [hc, hfr]
  · intro c rest hch hc hfr hco
    unfold get_review
    rw [if_neg hsize, extractReview, hch]
    simp [hc, hfr, hco]
  · intro c rest content_value hch hc hfr hco hstrip
    unfold get_review
    rw [if_neg hsize, extractReview, hch]
    simp [hc, hfr, hco, hstrip]

/-- Witness for C3: a truncated response with non-empty partial text, a
response without choices, and a whitespace-only response. -/
theorem dispatch_validation_order_witness :
    get_review cfgW "x" none "" ⟨some [⟨true, some "length", some "partial text"⟩]⟩ "c" =
      .error (wrapLLM (truncatedMsg cfgW)) ∧
    get_review cfgW "x" none "" ⟨none⟩ "c" = .error (wrapLLM noChoicesMsg) ∧
    get_review cfgW "x" none "" ⟨some [⟨true, some "stop", some " "⟩]⟩ "c" =
      .error (wrapLLM emptyContentMsg) :=
  ⟨(dispatch_validation_order cfgW "x" "" none
      ⟨some [⟨true, some "length", some "partial text"⟩]⟩ "c" (by decide)).2.2.1
      ⟨true, some "length", some "partial text"⟩ [] rfl rfl rfl,
   (dispatch_validation_order cfgW "x" "" none ⟨none⟩ "c" (by decide)).1 (Or.inl rfl),
   (dispatch_validation_order cfgW "x" "" none
      ⟨some [⟨true, some "stop", some " "⟩]⟩ "c" (by decide)).2.2.2.2
      ⟨true, some "stop", some " "⟩ [] " " rfl rfl (by decide) rfl (by decide)⟩

/-! ## Line-count ceilings (C5) -/

/-- C5: both ceilings count only non-blank lines (the count of a joined
line list equals the number of its non-blank lines), and both comparisons
are strict: a count at most the ceiling, equality included, returns
without consulting the confirmation answer or the auto-confirm flag, and
only a strictly greater count can cancel the review. -/
theorem line_ceiling_strict :
    (∀ ls : List (List Char), (∀ l ∈ ls, ('\n' : Char) ∉ l) →
      count_lines ⟨joinNL ls⟩
        = (ls.filter (fun l => !(stripChars l).isEmpty)).length) ∧
    (∀ (filepath content : String) (ex : String → Bool) (max_lines : Nat),
      ex filepath = true → (stripChars content.data).isEmpty = false →
      count_lines content ≤ max_lines →
      ∀ (yes : Bool) (answer : String),
        review_single_file filepath ex (.ok content) max_lines yes answer = .ok content) ∧
    (∀ (filepath content : String) (ex : String → Bool) (max_lines : Nat),
      ex filepath = true → (stripChars content.data).isEmpty = false →
      count_lines content > max_lines →
      ∀ answer : String, pyLower answer ≠ "y" →
        review_single_file filepath ex (.ok content) max_lines false answer =
          .error (.userCancelled "Review cancelled by user")) ∧
    (∀ (config : Config) (diff : String), diff ≠ "" →
      count_lines diff ≤ config.max_total_diff_lines →
      ∀ (yes : Bool) (answer : String),
        confirmLargeDiff config yes answer diff = .ok ("```diff\n" ++ diff ++ "\n```")) ∧
    (∀ (config : Config) (diff : String), diff ≠ "" →
      count_lines diff > config.max_total_diff_lines →
      ∀ answer : String, pyLower answer ≠ "y" →
        confirmLargeDiff config false answer diff =
          .error (.userCancelled
            "Consider reviewing files one at a time with: cr <filename>")) := by
  refine ⟨?_, ?_, ?_, ?_, ?_⟩
  · intro ls h
    cases ls with
    | nil => decide
    | cons l rest =>
      unfold count_lines
      rw [show (String.mk (joinNL (l :: rest))).data = joinNL (l :: rest) from rfl,
        splitNL_joinNL (by simp) h]
  · intro filepath content ex max_lines hex hse hcount yes answer
    unfold review_single_file
    have hmax : ¬(count_lines content > max_lines) := by omega
    simp [hex, hse, hmax]
  · intro filepath content ex max_lines hex hse hcount answer hans
    unfold review_single_file
    simp [hex, hse, hcount, hans]
  · intro config diff hne hcount yes answer
    unfold confirmLargeDiff
    have hmax : ¬(count_lines diff > config.max_total_diff_lines) := by omega
    simp [hne, hmax]
  · intro config diff hne hcount answer hans
    unfold confirmLargeDiff
    simp [hne, hcount, hans]

/-- Witness for C5: a two-line file at a ceiling of two proceeds with no
prompt, three lines are cancelled; the same at the diff ceiling; and blank
lines are not counted. -/
theorem line_ceiling_strict_witness :
    review_single_file "f.py" (fun _ => true) (.ok "a\nb") 2 false "n" = .ok "a\nb" ∧
    review_single_file "f.py" (fun _ => true) (.ok "a\nb\nc") 2 false "n" =
      .error (.userCancelled "Review cancelled by user") ∧
    confirmLargeDiff cfgDiff2 false "n" "x\ny" = .ok ("```diff\n" ++ "x\ny" ++ "\n```") ∧
    confirmLargeDiff cfgDiff2 false "n" "x\ny\nz" =
      .error (.userCancelled "Consider reviewing files one at a time with: cr <filename>") ∧
    count_lines ⟨joinNL [['a'], [], ['b'], [' ']]⟩
      = ([['a'], [], ['b'], [' ']].filter (fun l => !(stripChars l).isEmpty)).length :=
  ⟨line_ceiling_strict.2.1 "f.py" "a\nb" (fun _ => true) 2 (by decide) (by decide)
      (by decide) false "n",
   line_ceiling_strict.2.2.1 "f.py" "a\nb\nc" (fun _ => true) 2 (by decide) (by decide)
      (by decide) "n" (by decide),
   line_ceiling_strict.2.2.2.1 cfgDiff2 "x\ny" (by decide) (by decide) false "n",
   line_ceiling_strict.2.2.2.2 cfgDiff2 "x\ny\nz" (by decide) (by decide) "n" (by decide),
   line_ceiling_strict.1 [['a'], [], ['b'], [' ']] (by decide)⟩

/-! ## Git-change mode resolution and fallback (C1) -/

/-- C1: with a truthy time expression, a resolved commit puts the run in
since-commit mode on that commit, and an unresolved time falls back to
uncommitted mode without failing; an empty listing in time-derived
since-commit mode first retries as uncommitted and only then falls to
last-commit, while a directly supplied since-commit mode or the default
uncommitted mode falls to last-commit directly, even when uncommitted
files exist; and when the final listing is still empty the run fails with
the no-changed-files error. -/
theorem git_change_fallback_chain (env : GitEnv) (config : Config) (now : Int) :
    (∀ (sc : Option String) (ts h : String) (fs : List String), ts ≠ "" →
      get_commit_from_time env now ts = .ok (some h) →
      get_changed_files env config (some h) = .ok fs → fs ≠ [] →
      resolveFiles env config now sc (some ts) = .ok ("since-commit", fs, some h)) ∧
    (∀ (sc : Option String) (ts : String) (fs : List String), ts ≠ "" →
      get_commit_from_time env now ts = .ok none →
      get_changed_files env config none = .ok fs → fs ≠ [] →
      resolveFiles env config now sc (some ts) = .ok ("uncommitted", fs, none)) ∧
    (∀ (sc : Option String) (ts h : String) (us : List String), ts ≠ "" →
      get_commit_from_time env now ts = .ok (some h) →
      get_changed_files env config (some h) = .ok [] →
      get_changed_files env config none = .ok us → us ≠ [] →
      resolveFiles env config now sc (some ts) = .ok ("uncommitted", us, none)) ∧
    (∀ (sc : Option String) (ts h : String) (ls : List String), ts ≠ "" →
      get_commit_from_time env now ts = .ok (some h) →
      get_changed_files env config (some h) = .ok [] →
      get_changed_files env config none = .ok [] →
      get_last_commit_files env config = .ok ls →
      resolveFiles env config now sc (some ts) = .ok ("last-commit", ls, some h)) ∧
    (∀ (c : String) (us ls : List String), c ≠ "" →
      get_changed_files env config (some c) = .ok [] →
      get_changed_files env config none = .ok us → us ≠ [] →
      get_last_commit_files env config = .ok ls →
      resolveFiles env config now (some c) none = .ok ("last-commit", ls, some c)) ∧
    (∀ ls : List String,
      get_changed_files env config none = .ok [] →
      get_last_commit_files env config = .ok ls →
      resolveFiles env config now none none = .ok ("last-commit", ls, none)) ∧
    (∀ (sc st : Option String) (m : String) (x : Option String) (yes : Bool)
        (answer : String),
      resolveFiles env config now sc st = .ok (m, [], x) →
      review_git_changes env config now sc st yes answer =
        .error (.fileError noChangedFilesMsg)) := by
  refine ⟨?_, ?_, ?_, ?_, ?_, ?_, ?_⟩
  · intro sc ts h fs hts hc hf hfs
    have hinit : initialSelection env config now sc (some ts) =
        .ok ("since-commit", fs, some h) := by
      unfold initialSelection
      simp [truthy, hts, hc, hf]
    unfold resolveFiles
    rw [hinit]
    unfold applyFallback
    simp [List.isEmpty_eq_false.mpr hfs]
  · intro sc ts fs hts hc hf hfs
    have hinit : initialSelection env config now sc (some ts) =
        .ok ("uncommitted", fs, none) := by
      unfold initialSelection
      simp [truthy, hts, hc, hf]
    unfold resolveFiles
    rw [hinit]
    unfold applyFallback
    simp [List.isEmpty_eq_false.mpr hfs]
  · intro sc ts h us hts hc hf hu hus
    have hinit : initialSelection env config now sc (some ts) =
        .ok ("since-commit", [], some h) := by
      unfold initialSelection
      simp [truthy, hts, hc, hf]
    unfold resolveFiles
    rw [hinit]
    unfold applyFallback
    simp [truthy, hts, hu, List.isEmpty_eq_false.mpr hus]
  · intro sc ts h ls hts hc hf hu hl
    have hinit : initialSelection env config now sc (some ts) =
        .ok ("since-commit", [], some h) := by
      unfold initialSelection
      simp [truthy, hts, hc, hf]
    unfold resolveFiles
    rw [hinit]
    unfold applyFallback
    simp [truthy, hts, hu, hl]
  · intro c us ls hc hf hu hus hl
    have hinit : initialSelection env config now (some c) none =
        .ok ("since-commit", [], some c) := by
      unfold initialSelection
      simp [truthy, hc, hf]
    unfold resolveFiles
    rw [hinit]
    unfold applyFallback
    simp [truthy, hl]
  · intro ls hf hl
    have hinit : initialSelection env config now none none =
        .ok ("uncommitted", [], none) := by
      unfold initialSelection
      simp [truthy, hf]
    unfold resolveFiles
    rw [hinit]
    unfold applyFallback
    simp [truthy, hl]
  · intro sc st m x yes answer hres
    unfold review_git_changes
    rw [hres]
    simp

/-- Witness for C1: the spec scenario (a commit three hours back, nothing
committed since, nothing uncommitted, one file in the last commit) and a
repository with no changes anywhere. -/
theorem git_change_fallback_chain_witness :
    resolveFiles envTimeFallback cfgW 0 none (some "2h") =
      .ok ("last-commit", ["x.py"], some "abc123") ∧
    resolveFiles envNothing cfgW 0 none none = .ok ("last-commit", [], none) ∧
    review_git_changes envNothing cfgW 0 none none false "" =
      .error (.fileError noChangedFilesMsg) :=
  ⟨(git_change_fallback_chain envTimeFallback cfgW 0).2.2.2.1 none "2h" "abc123" ["x.py"]
      (by decide) (by decide) (by decide) (by decide) (by decide),
   (git_change_fallback_chain envNothing cfgW 0).2.2.2.2.2.1 [] (by decide) (by decide),
   (git_change_fallback_chain envNothing cfgW 0).2.2.2.2.2.2 none none "last-commit" none
      false ""
      ((git_change_fallback_chain envNothing cfgW 0).2.2.2.2.2.1 [] (by decide) (by decide))⟩

/-! ## Content handed to dispatch (C9) -/

theorem strip_nonempty_content {content : String}
    (h : (stripChars content.data).isEmpty = false) :
    content ≠ "" ∧ (stripChars content.data).isEmpty = false :=
  ⟨fun he => by subst he; exact absurd h (by decide), h⟩

/-- C9: every run that reaches dispatch submits non-empty content.  The
single-file path only returns content whose stripped form is non-blank,
hence a non-empty string; and the git-change path never returns content
at all - with files located it fails on the missing configuration
attribute before assembling any diff, and with none located it fails with
the no-changed-files error - so no run reaches dispatch through it. -/
theorem dispatch_content_nonempty :
    (∀ (filepath : String) (ex : String → Bool) (readResult : Except String String)
        (max_lines : Nat) (yes : Bool) (answer content : String),
      review_single_file filepath ex readResult max_lines yes answer = .ok content →
      content ≠ "" ∧ (stripChars content.data).isEmpty = false) ∧
    (∀ (env : GitEnv) (config : Config) (now : Int) (sc st : Option String)
        (yes : Bool) (answer s : String),
      review_git_changes env config now sc st yes answer ≠ .ok s) := by
  constructor
  · intro filepath ex readResult max_lines yes answer content h
    unfold review_single_file at h
    repeat' split at h
    all_goals cases h
    all_goals exact strip_nonempty_content (by simp_all)
  · intro env config now sc st yes answer s h
    unfold review_git_changes at h
    repeat' split at h
    all_goals simp_all [get_diff_content]

/-- Witness for C9 on a concrete single-file run and a concrete git-change
run with one located untracked file. -/
theorem dispatch_content_nonempty_witness :
    (("hello" : String) ≠ "" ∧ (stripChars (("hello" : String)).data).isEmpty = false) ∧
    review_git_changes envUntracked cfgW 0 none none false "" ≠ .ok "" :=
  ⟨dispatch_content_nonempty.1 "f.py" (fun _ => true) (.ok "hello") 10 false "n" "hello"
      (by decide),
   dispatch_content_nonempty.2 envUntracked cfgW 0 none none false "" ""⟩

end CodeReviewer
